import Mathlib

/-!
# Verification of the Backstage GitHub Release Manager orchestration logic

A shallow embedding of the release-orchestration code of the
`github-release-manager` / `git-release-manager` Backstage plugins:

* `PluginApiClient` (integration-config resolution, `getRepositories`,
  `getLatestRelease`, the `createRc`, `patch`, `promoteRc` and `stats`
  namespaces);
* the `useCreateRc` hook's six/seven step release-candidate chain with its
  `ResponseStep` progress log;
* the `promoteRc` flow;
* `getTagDate` with its annotated-tag / commit-date fallback;
* the versioning-strategy validation gating of the action cards.

The remote GitHub API is modelled as an environment (one `Except` outcome
per endpoint the flow may hit); each flow is a pure function from its
inputs and such an environment to the ordered list of requests it issued,
the response-step log it appended, and its final result.  The theorems
below are stated over those functions.
-/

deriving instance DecidableEq for Except

namespace ReleaseManager

/-- An error coming back from the wrapped GitHub client: the HTTP status,
a top-level message and the optional `body.message` that the hooks inspect
(e.g. `"Reference already exists"`). -/
structure ApiError where
  status : Nat
  message : String
  bodyMessage : Option String
deriving DecidableEq, Repr

/-- `true` on `Except.ok`. -/
def okB {ε α : Type} : Except ε α → Bool
  | .ok _ => true
  | .error _ => false

@[simp] theorem okB_ok {ε α : Type} (a : α) : okB (ε := ε) (.ok a) = true := rfl

@[simp] theorem okB_error {ε α : Type} (e : ε) : okB (α := α) (.error e) = false := rfl

/-- JavaScript template-literal rendering of a nullable string:
`null` prints as `"null"`. -/
def jsShow : Option String → String
  | some s => s
  | none => "null"

/-! ## Integration-config resolution (`PluginApiClient.getGithubIntegrationConfig`) -/

/-- One entry of `integrations.github` as read by
`readGitHubIntegrationConfigs`: the host and an optional API base URL. -/
structure GithubIntegrationConfig where
  host : String
  apiBaseUrl : Option String
deriving DecidableEq, Repr

/-- `PluginApiClient.getGithubIntegrationConfig`: the first config whose host
starts with `"ghe."` takes priority; otherwise the one whose host is
`"github.com"`. -/
def getGithubIntegrationConfig (configs : List GithubIntegrationConfig) :
    Option GithubIntegrationConfig :=
  let githubIntegrationEnterpriseConfig :=
    configs.find? (fun v => v.host.startsWith "ghe.")
  let githubIntegrationConfig := configs.find? (fun v => v.host == "github.com")
  githubIntegrationEnterpriseConfig <|> githubIntegrationConfig

/-- The `host` the `PluginApiClient` constructor stores
(`githubIntegrationConfig?.host ?? 'github.com'`). -/
def clientHost (configs : List GithubIntegrationConfig) : String :=
  ((getGithubIntegrationConfig configs).map (fun c => c.host)).getD "github.com"

/-- The `baseUrl` the `PluginApiClient` constructor stores
(`githubIntegrationConfig?.apiBaseUrl ?? 'https://api.github.com'`). -/
def clientBaseUrl (configs : List GithubIntegrationConfig) : String :=
  ((getGithubIntegrationConfig configs).bind (fun c => c.apiBaseUrl)).getD
    "https://api.github.com"

/-! ## `getRepositories` (org listing with 404 fallback to user listing) -/

/-- A repository as listed by the GitHub API (only the field the client
keeps). -/
structure RepoInfo where
  name : String
deriving DecidableEq, Repr

/-- Outcomes of the two paginated listing endpoints `getRepositories` may
hit. -/
structure GetRepositoriesEnv where
  listForOrg : Except ApiError (List RepoInfo)
  listForUser : Except ApiError (List RepoInfo)
deriving DecidableEq, Repr

/-- A listing request issued by `getRepositories`, with the `per_page`
pagination parameter. -/
inductive RepoListCall
  | listForOrg (org : String) (perPage : Nat)
  | listForUser (username : String) (perPage : Nat)
deriving DecidableEq, Repr

/-- What one execution of `getRepositories` did: the requests it issued in
order and its result. -/
structure GetRepositoriesRun where
  calls : List RepoListCall
  result : Except ApiError (List String)
deriving DecidableEq, Repr

/-- `PluginApiClient.getRepositories`: list the owner's repositories as an
organization; on a 404 fall back to listing them as a user; rethrow any
other error. -/
def getRepositories (owner : String) (env : GetRepositoriesEnv) :
    GetRepositoriesRun :=
  match env.listForOrg with
  | .ok repositoryResponse =>
    ⟨[.listForOrg owner 100], .ok (repositoryResponse.map (fun r => r.name))⟩
  | .error e =>
    if e.status = 404 then
      match env.listForUser with
      | .ok userRepositoryResponse =>
        ⟨[.listForOrg owner 100, .listForUser owner 100],
          .ok (userRepositoryResponse.map (fun r => r.name))⟩
      | .error e2 =>
        ⟨[.listForOrg owner 100, .listForUser owner 100], .error e2⟩
    else ⟨[.listForOrg owner 100], .error e⟩

/-! ## `getLatestRelease` -/

/-- A release as returned by GitHub's list-releases endpoint (the fields the
client reads). -/
structure RawRelease where
  target_commitish : String
  tag_name : String
  prerelease : Bool
  id : Nat
  html_url : String
  body : Option String
deriving DecidableEq, Repr

/-- The reduced release object `getLatestRelease` returns. -/
structure Release where
  targetCommitish : String
  tagName : String
  prerelease : Bool
  id : Nat
  htmlUrl : String
  body : Option String
deriving DecidableEq, Repr

/-- The list-releases request `getLatestRelease` issues. -/
structure ListReleasesRequest where
  owner : String
  repo : String
  per_page : Nat
deriving DecidableEq, Repr

/-- The repository's releases as GitHub stores them, most recent first.
The list-releases endpoint returns the first `per_page` of them. -/
structure GetLatestReleaseEnv where
  allReleases : List RawRelease
deriving DecidableEq, Repr

/-- GitHub's list-releases endpoint: the first `per_page` stored releases. -/
def listReleases (env : GetLatestReleaseEnv) (req : ListReleasesRequest) :
    List RawRelease :=
  env.allReleases.take req.per_page

/-- What one execution of `getLatestRelease` did. -/
structure GetLatestReleaseRun where
  request : ListReleasesRequest
  result : Option Release
deriving DecidableEq, Repr

/-- `PluginApiClient.getLatestRelease`: request one release per page; `null`
when the listing is empty, otherwise the first release reduced to the six
kept fields. -/
def getLatestRelease (owner repo : String) (env : GetLatestReleaseEnv) :
    GetLatestReleaseRun :=
  let req : ListReleasesRequest := ⟨owner, repo, 1⟩
  match listReleases env req with
  | [] => ⟨req, none⟩
  | latestRelease :: _ =>
    ⟨req, some ⟨latestRelease.target_commitish, latestRelease.tag_name,
      latestRelease.prerelease, latestRelease.id, latestRelease.html_url,
      latestRelease.body⟩⟩

/-! ## `getTagDate` (annotated-tag date with fallback to the commit date) -/

/-- The annotated-tag data `stats.getSingleTag` returns. -/
structure SingleTagInfo where
  date : String
  username : String
  userEmail : String
deriving DecidableEq, Repr

/-- The commit data `stats.getCommit` returns. -/
structure CommitInfo where
  createdAt : Option String
deriving DecidableEq, Repr

/-- Outcomes of the two endpoints `getTagDate` may hit. -/
structure TagDateEnv where
  getSingleTag : Except ApiError SingleTagInfo
  getCommit : Except ApiError CommitInfo
deriving DecidableEq, Repr

/-- A request issued by `getTagDate`. -/
inductive TagDateCall
  | getSingleTag (tagSha : String)
  | getCommit (ref : String)
deriving DecidableEq, Repr

/-- The value `getTagDate` resolves with. -/
structure TagDateResult where
  tagDate : Option String
deriving DecidableEq, Repr

/-- What one execution of `getTagDate` did. -/
structure TagDateRun where
  calls : List TagDateCall
  result : Except ApiError TagDateResult
deriving DecidableEq, Repr

/-- `getTagDate`: try `stats.getSingleTag` first; on any thrown error fall
back to `stats.getCommit` and return that commit's date. -/
def getTagDate (tagSha : String) (env : TagDateEnv) : TagDateRun :=
  match env.getSingleTag with
  | .ok singleTag => ⟨[.getSingleTag tagSha], .ok ⟨some singleTag.date⟩⟩
  | .error _ =>
    match env.getCommit with
    | .ok commitRes =>
      ⟨[.getSingleTag tagSha, .getCommit tagSha], .ok ⟨commitRes.createdAt⟩⟩
    | .error e2 => ⟨[.getSingleTag tagSha, .getCommit tagSha], .error e2⟩

/-- The commit-date fallback was taken: the run issued the `getCommit`
request. -/
def tagDateFallbackTaken (tagSha : String) (env : TagDateEnv) : Prop :=
  TagDateCall.getCommit tagSha ∈ (getTagDate tagSha env).calls

instance (tagSha : String) (env : TagDateEnv) :
    Decidable (tagDateFallbackTaken tagSha env) := by
  unfold tagDateFallbackTaken; infer_instance

/-- A concrete environment where `getSingleTag` fails with an HTTP 500
server error (not the 404 a lightweight tag produces) and `getCommit`
succeeds. -/
def tagDateServerErrorEnv : TagDateEnv :=
  ⟨.error ⟨500, "Server Error", none⟩, .ok ⟨some "2021-02-03T10:00:00Z"⟩⟩

/-! ## Theorems on the client helpers -/

/-- C10: resolving the GitHub integration configuration, a config whose host
starts with `"ghe."` is always chosen (in particular over the `"github.com"`
config when both are present), and when no `"ghe."` and no `"github.com"`
config is present the client's host defaults to `"github.com"` and its API
base URL to `"https://api.github.com"`. -/
theorem gheConfigPriorityAndDefaults :
    ∀ configs : List GithubIntegrationConfig,
      (∀ e, configs.find? (fun v => v.host.startsWith "ghe.") = some e →
        getGithubIntegrationConfig configs = some e) ∧
      ((∀ c ∈ configs, c.host.startsWith "ghe." = false ∧ c.host ≠ "github.com") →
        clientHost configs = "github.com" ∧
        clientBaseUrl configs = "https://api.github.com") := by
  intro configs
  constructor
  · intro e he
    simp [getGithubIntegrationConfig, he, Option.orElse]
  · intro h
    have hghe : configs.find? (fun v => v.host.startsWith "ghe.") = none :=
      List.find?_eq_none.mpr (fun c hc => by simp [(h c hc).1])
    have hcom : configs.find? (fun v => v.host == "github.com") = none :=
      List.find?_eq_none.mpr (fun c hc => by simp [(h c hc).2])
    constructor
    · simp [clientHost, getGithubIntegrationConfig, hghe, hcom, Option.orElse]
    · simp [clientBaseUrl, getGithubIntegrationConfig, hghe, hcom, Option.orElse]

/-- C9: `getRepositories` lists the owner's repositories as an organization
first; the user-listing fallback is issued iff the org listing failed with
HTTP status 404; an org-listing error with any other status propagates to
the caller unchanged. -/
theorem getRepositoriesOrgThenUserFallback :
    ∀ (owner : String) (env : GetRepositoriesEnv),
      (getRepositories owner env).calls.head? =
        some (.listForOrg owner 100) ∧
      ((RepoListCall.listForUser owner 100) ∈ (getRepositories owner env).calls ↔
        ∃ e, env.listForOrg = .error e ∧ e.status = 404) ∧
      (∀ e, env.listForOrg = .error e → e.status ≠ 404 →
        (getRepositories owner env).result = .error e) := by
  intro owner env
  rcases env with ⟨org, user⟩
  cases org with
  | ok rs => simp [getRepositories]
  | error e =>
    by_cases h : e.status = 404
    · cases user <;> simp [getRepositories, h]
    · simp [getRepositories, h]

/-- C8: `getLatestRelease` requests one release per page, returns `null`
exactly when the repository has zero releases, and otherwise returns the
first listed release reduced to the fields
`{targetCommitish, tagName, prerelease, id, htmlUrl, body}`. -/
theorem getLatestReleaseNoneIffNoReleases :
    ∀ (owner repo : String) (env : GetLatestReleaseEnv),
      (getLatestRelease owner repo env).request = ⟨owner, repo, 1⟩ ∧
      ((getLatestRelease owner repo env).result = none ↔
        env.allReleases = []) ∧
      (∀ r rest, env.allReleases = r :: rest →
        (getLatestRelease owner repo env).result =
          some ⟨r.target_commitish, r.tag_name, r.prerelease, r.id,
            r.html_url, r.body⟩) := by
  intro owner repo env
  rcases env with ⟨rels⟩
  cases rels <;> simp [getLatestRelease, listReleases]

/-- C5, counterexample to the claim as stated: the fallback from
`getSingleTag` to `getCommit` is taken on an HTTP 500 server error as well —
not only when the tag is lightweight (a 404) — and that error is silently
swallowed: the run still resolves with the commit's date. -/
theorem getTagDateClaimCounterexample :
    tagDateFallbackTaken "sha0" tagDateServerErrorEnv ∧
    tagDateServerErrorEnv.getSingleTag = .error ⟨500, "Server Error", none⟩ ∧
    (500 : Nat) ≠ 404 ∧
    (getTagDate "sha0" tagDateServerErrorEnv).result =
      .ok ⟨some "2021-02-03T10:00:00Z"⟩ := by
  refine ⟨?_, ?_, ?_, ?_⟩ <;> decide

/-- C5, amended: `getTagDate` returns the annotated tag's own date when
`getSingleTag` succeeds; on ANY failure of `getSingleTag` (whatever its
cause) it falls back to fetching the referenced commit and returns that
commit's date, and only an error of the fallback `getCommit` call itself
propagates. -/
theorem getTagDateFallbackOnAnyError :
    ∀ (tagSha : String) (env : TagDateEnv),
      (∀ t, env.getSingleTag = .ok t →
        getTagDate tagSha env = ⟨[.getSingleTag tagSha], .ok ⟨some t.date⟩⟩) ∧
      (∀ e, env.getSingleTag = .error e →
        (getTagDate tagSha env).calls =
          [.getSingleTag tagSha, .getCommit tagSha] ∧
        (getTagDate tagSha env).result =
          (env.getCommit.map fun c => (⟨c.createdAt⟩ : TagDateResult))) := by
  intro tagSha env
  rcases env with ⟨st, gc⟩
  constructor
  · intro t ht; cases st <;> simp_all [getTagDate]
  · intro e he; cases st <;> cases gc <;> simp_all [getTagDate, Except.map]

/-! ## Versioning-strategy validation and the action-card gate -/

/-- The configured tag-naming convention of a project. -/
inductive VersioningStrategy
  | semver
  | calver
deriving DecidableEq, Repr

/-- The characters of `s` start with the characters of `p`. -/
def charsStartWith : List Char → List Char → Bool
  | _, [] => true
  | [], _ :: _ => false
  | c :: cs, p :: ps => c == p && charsStartWith cs ps

/-- Split a character list at every `'.'`. -/
def splitDotAux : List Char → List Char → List (List Char)
  | [], acc => [acc.reverse]
  | c :: cs, acc =>
    if c = '.' then acc.reverse :: splitDotAux cs []
    else splitDotAux cs (c :: acc)

/-- The `'.'`-separated segments of a character list. -/
def splitOnDot (cs : List Char) : List (List Char) :=
  splitDotAux cs []

/-- A non-empty all-digit segment. -/
def isDigits (cs : List Char) : Bool :=
  !cs.isEmpty && cs.all Char.isDigit

/-- Modelled from the spec: a semver version component list `1.2.3` —
three dot-separated numbers (the `getSemverTagParts` helper is not under
`src/`). -/
def semverVersionOk (cs : List Char) : Bool :=
  match splitOnDot cs with
  | [major, minor, p] => isDigits major && isDigits minor && isDigits p
  | _ => false

/-- Modelled from the spec: a calver version in the `2024.01.15` style —
a four-digit year and two-digit month and day (the `getCalverTagParts`
helper is not under `src/`). -/
def calverVersionOk (cs : List Char) : Bool :=
  match splitOnDot cs with
  | [y, m, d] =>
    (isDigits y && y.length == 4) && (isDigits m && m.length == 2) &&
      (isDigits d && d.length == 2)
  | _ => false

/-- Modelled from the spec: tags carry an `rc-` (release candidate) or
`version-` (promoted release) marker before the version component. -/
def tagVersionPart (tagName : String) : Option (List Char) :=
  if charsStartWith tagName.data ['r', 'c', '-'] then
    some (tagName.data.drop 3)
  else if charsStartWith tagName.data
      ['v', 'e', 'r', 's', 'i', 'o', 'n', '-'] then
    some (tagName.data.drop 8)
  else none

/-- A tag name matches the configured strategy's grammar: `version-1.2.3`
style for semver, `version-2024.01.15` style for calver (and likewise with
the `rc-` marker). -/
def tagMatchesVersioningStrategy (strategy : VersioningStrategy)
    (tagName : String) : Bool :=
  match tagVersionPart tagName with
  | none => false
  | some v =>
    match strategy with
    | .semver => semverVersionOk v
    | .calver => calverVersionOk v

/-- The mismatch error `validateTagName` surfaces. -/
structure TagNameError where
  title : Option String
  subtitle : String
deriving DecidableEq, Repr

/-- Modelled from the spec: `validateTagName` parses the most recent tag
name according to the configured strategy and reports a single mismatch
error when it does not match; with no tag there is nothing to validate.
(The `validateTagName` helper itself is not under `src/`.)  A pure
predicate: it issues no request and mutates nothing. -/
def validateTagName (strategy : VersioningStrategy)
    (tagName : Option String) : Option TagNameError :=
  match tagName with
  | none => none
  | some t =>
    if tagMatchesVersioningStrategy strategy t then none
    else some ⟨some "Versioning mismatch",
      "expected " ++ (match strategy with
        | .semver => "semver"
        | .calver => "calver") ++ " version, got " ++ t⟩

/-- Modelled from the spec: `useVersioningStrategyMatchesRepoTags` — the
most recent release's tag matches the configured strategy (vacuously true
with no release; the hook is not under `src/`). -/
def versioningStrategyMatches (strategy : VersioningStrategy)
    (latestReleaseTagName : Option String) : Bool :=
  match latestReleaseTagName with
  | none => true
  | some t => tagMatchesVersioningStrategy strategy t

/-- The repository data the batch fetch returns (the fields the gate
reads). -/
structure RepositoryInfo where
  pushPermissions : Option Bool
  defaultBranch : String
  name : String
deriving DecidableEq, Repr

/-- The batch info the `Cards` component renders from. -/
structure GitHubBatchInfo where
  latestRelease : Option Release
  repository : RepositoryInfo
deriving DecidableEq, Repr

/-- The state of a `useAsync` fetch: loading, failed, or done (possibly
with an `undefined` value). -/
inductive AsyncState (α : Type)
  | loading
  | failed (message : String)
  | done (value : Option α)
deriving DecidableEq, Repr

/-- The per-feature `omit` flags of the plugin configuration. -/
structure FeatureFlags where
  omitCreateRc : Bool
  omitPromoteRc : Bool
  omitPatch : Bool
deriving DecidableEq, Repr

/-- What the `Cards` component renders: exactly one of these. -/
inductive CardsView
  | errorAlert (message : String)
  | loadingIndicator
  | batchInfoMissingAlert
  | pushPermissionsAlert
  | versioningMismatchAlert (expected : VersioningStrategy)
      (got : Option String)
  | cards (showCreateRc showPromoteRc showPatch : Bool)
deriving DecidableEq, Repr

/-- The `Cards` component of `GitHubReleaseManager`: error, loading and
missing-value alerts first, then the push-permission gate, then the
versioning-strategy gate (a single mismatch alert that blocks every action
card), and only past all gates the action cards themselves, each subject to
its `omit` flag. -/
def renderCards (strategy : VersioningStrategy) (flags : FeatureFlags)
    (gitHubBatchInfo : AsyncState GitHubBatchInfo) : CardsView :=
  match gitHubBatchInfo with
  | .failed msg => .errorAlert msg
  | .loading => .loadingIndicator
  | .done none => .batchInfoMissingAlert
  | .done (some v) =>
    let latestTag := v.latestRelease.map (fun r => r.tagName)
    if v.repository.pushPermissions ≠ some true then .pushPermissionsAlert
    else if !(versioningStrategyMatches strategy latestTag) then
      .versioningMismatchAlert strategy latestTag
    else .cards (!flags.omitCreateRc) (!flags.omitPromoteRc) (!flags.omitPatch)

/-! ## `promoteRc` -/

/-- One entry of the `ResponseStep` progress log:
`{message, secondaryMessage?, link?, icon?}`. -/
structure ResponseStep where
  message : String
  secondaryMessage : Option String
  link : Option String
  icon : Option String
deriving DecidableEq, Repr

/-- An update-release request as `octokit.repos.updateRelease` receives it;
`none` fields are absent from the request and left unchanged by GitHub. -/
structure UpdateReleaseRequest where
  owner : String
  repo : String
  release_id : Nat
  tag_name : Option String
  prerelease : Option Bool
  body : Option String
deriving DecidableEq, Repr

/-- The fields of the updated release the client keeps. -/
structure UpdatedReleasePayload where
  name : Option String
  tagName : String
  htmlUrl : String
deriving DecidableEq, Repr

/-- The release as GitHub stores it. -/
structure ReleaseRecord where
  id : Nat
  tagName : String
  prerelease : Bool
  name : Option String
  body : Option String
deriving DecidableEq, Repr

/-- GitHub's update-release endpoint (spec §6): the release addressed by
`release_id` has exactly the fields present in the request replaced; its id
is not an updatable field and never changes. -/
def applyUpdateRelease (r : ReleaseRecord) (req : UpdateReleaseRequest) :
    ReleaseRecord :=
  if r.id = req.release_id then
    ⟨r.id, req.tag_name.getD r.tagName, req.prerelease.getD r.prerelease,
      r.name, match req.body with | some b => some b | none => r.body⟩
  else r

/-- Inputs of the `promoteRc` flow: the project, the current prerelease
(id, tag name, html url) and the target version. -/
structure PromoteInputs where
  owner : String
  repo : String
  rcReleaseId : Nat
  rcReleaseTagName : String
  rcReleaseHtmlUrl : String
  releaseVersion : String
  hasSuccessCb : Bool
deriving DecidableEq, Repr

/-- Outcome of the one endpoint the `promoteRc` flow hits. -/
structure PromoteEnv where
  updateRelease : Except ApiError UpdatedReleasePayload
deriving DecidableEq, Repr

/-- The payload the `promoteRc` success callback receives: the before/after
tag names and URLs. -/
structure PromoteCbPayload where
  gitHubReleaseUrl : String
  gitHubReleaseName : Option String
  previousTagUrl : String
  previousTag : String
  updatedTagUrl : String
  updatedTag : String
deriving DecidableEq, Repr

/-- What one execution of the `promoteRc` flow did. -/
structure PromoteRun where
  requests : List UpdateReleaseRequest
  responseSteps : List ResponseStep
  cbPayload : Option PromoteCbPayload
  result : Except ApiError (List ResponseStep)
deriving DecidableEq, Repr

/-- The single update-release request `promoteRc.promoteRelease` issues:
the prerelease flag cleared, the tag name set to the target version, the
body untouched. -/
def promoteRcRequest (inp : PromoteInputs) : UpdateReleaseRequest :=
  ⟨inp.owner, inp.repo, inp.rcReleaseId, some inp.releaseVersion,
    some false, none⟩

/-- The `promoteRc` flow: one update-release call; on success one response
step and the success callback (when supplied) with the before/after tag
names and URLs. -/
def runPromoteRc (inp : PromoteInputs) (env : PromoteEnv) : PromoteRun :=
  let req := promoteRcRequest inp
  match env.updateRelease with
  | .error e => ⟨[req], [], none, .error e⟩
  | .ok release =>
    let step : ResponseStep :=
      ⟨"Promoted \"" ++ jsShow release.name ++ "\"",
        some ("from \"" ++ inp.rcReleaseTagName ++ "\" to \"" ++
          release.tagName ++ "\""),
        some release.htmlUrl, none⟩
    let payload : PromoteCbPayload :=
      ⟨release.htmlUrl, release.name, inp.rcReleaseHtmlUrl,
        inp.rcReleaseTagName, release.htmlUrl, release.tagName⟩
    ⟨[req], [step], if inp.hasSuccessCb then some payload else none,
      .ok [step]⟩

/-! ## Theorems on validation gating and promotion -/

/-- C3: strategy validation accepts a tag iff it matches the configured
strategy's grammar, and whenever the most recent release's tag fails to
match, the `Cards` component (push permissions granted, batch fetch done)
renders a single mismatch warning and none of the action cards; the
validation itself is a pure predicate over its inputs. -/
theorem validationGatesActionCards :
    ∀ (strategy : VersioningStrategy) (t : String) (flags : FeatureFlags)
      (v : GitHubBatchInfo) (rel : Release),
      (validateTagName strategy (some t) = none ↔
        tagMatchesVersioningStrategy strategy t = true) ∧
      (v.repository.pushPermissions = some true → v.latestRelease = some rel →
        rel.tagName = t → tagMatchesVersioningStrategy strategy t = false →
        renderCards strategy flags (.done (some v)) =
          .versioningMismatchAlert strategy (some t)) ∧
      (v.repository.pushPermissions = some true → v.latestRelease = some rel →
        rel.tagName = t → tagMatchesVersioningStrategy strategy t = true →
        renderCards strategy flags (.done (some v)) =
          .cards (!flags.omitCreateRc) (!flags.omitPromoteRc)
            (!flags.omitPatch)) := by
  intro strategy t flags v rel
  refine ⟨?_, ?_, ?_⟩
  · cases h : tagMatchesVersioningStrategy strategy t <;>
      simp [validateTagName, h]
  · intro hp hr ht hm
    simp [renderCards, hp, hr, ht, versioningStrategyMatches, hm]
  · intro hp hr ht hm
    simp [renderCards, hp, hr, ht, versioningStrategyMatches, hm]

/-- C4: promoting the release with id `R` issues exactly one update-release
call, which clears the prerelease flag, sets the tag name to the target
version and addresses id `R`; under the update-release endpoint's semantics
the stored release's id is unchanged; and on success the success callback
(when supplied) receives the before/after tag names and URLs. -/
theorem promoteRcSingleUpdateCall :
    ∀ (inp : PromoteInputs) (env : PromoteEnv),
      (runPromoteRc inp env).requests = [promoteRcRequest inp] ∧
      (promoteRcRequest inp).prerelease = some false ∧
      (promoteRcRequest inp).tag_name = some inp.releaseVersion ∧
      (promoteRcRequest inp).release_id = inp.rcReleaseId ∧
      (∀ r : ReleaseRecord,
        (applyUpdateRelease r (promoteRcRequest inp)).id = r.id) ∧
      (∀ rel, env.updateRelease = .ok rel → inp.hasSuccessCb = true →
        (runPromoteRc inp env).cbPayload =
          some ⟨rel.htmlUrl, rel.name, inp.rcReleaseHtmlUrl,
            inp.rcReleaseTagName, rel.htmlUrl, rel.tagName⟩) := by
  intro inp env
  rcases env with ⟨upd⟩
  refine ⟨?_, rfl, rfl, rfl, ?_, ?_⟩
  · cases upd <;> simp [runPromoteRc]
  · intro r
    unfold applyUpdateRelease
    split <;> rfl
  · intro rel hrel hcb
    cases upd <;> simp_all [runPromoteRc]

/-! ## The release-candidate creation chain (`useCreateRc`)

The hook is a chain of seven `useAsync` steps; each fires once the previous
step's value is available and aborts (issuing nothing) once any previous
step errored.  The chain is embedded as a step function `rcStep` over an
explicit state, iterated over the step indices `0..6`:

0. `getLatestCommit` on the default branch;
1. `createRc.createReleaseBranch` — a `refs/heads/…` ref at that sha
   (GitHub's create-ref response echoes `object.sha`, the sha the ref was
   created at, which the client stores as `releaseBranchObjectSha`);
2. `createTagObject` — the annotated tag object pointing at that sha;
3. `createReference` — the `refs/tags/…` ref at the tag object's sha
   (the response echoes the created ref name);
4. `createRc.getComparison` between the previous and the new branch,
   from which the release body is composed;
5. `createRc.createRelease` — the prerelease itself;
6. the caller-supplied success callback, when one was configured.

The `ResponseStep` log lives in a separate `useResponseSteps` state that no
step reads; `addStepToResponseSteps` appends one entry per completed call
and `asyncCatcher` aborts the chain with the thrown error (the
`useResponseSteps` hook is not under `src/`; its append/abort behaviour is
modelled from the spec).  The log is therefore embedded as a second,
write-only component beside the control state: `rcLogDelta` gives the
entries a step appends. -/

/-- The latest-commit data `getLatestCommit` returns. -/
structure LatestCommit where
  sha : String
  htmlUrl : String
  message : String
deriving DecidableEq, Repr

/-- The comparison data `createRc.getComparison` returns. -/
structure Comparison where
  htmlUrl : String
  aheadBy : Nat
deriving DecidableEq, Repr

/-- The created-release data `createRc.createRelease` returns. -/
structure CreateReleasePayload where
  name : Option String
  htmlUrl : String
  tagName : String
deriving DecidableEq, Repr

/-- Inputs of the `useCreateRc` chain: the project, the default branch, the
previous release (if any), the computed next branch/tag/release names, the
tagger identity and whether a success callback was supplied. -/
structure RcInputs where
  owner : String
  repo : String
  defaultBranch : String
  latestRelease : Option Release
  rcBranch : String
  rcReleaseTag : String
  releaseName : String
  taggerName : String
  taggerEmail : Option String
  hasSuccessCb : Bool
deriving DecidableEq, Repr

/-- One outcome per endpoint (and for the success callback) the chain may
hit.  The two create-ref endpoints return echoes of the request (GitHub's
create-ref response's `object.sha` and `ref` repeat what was asked for), so
only failure is environment-chosen for them. -/
structure RcEnv where
  getLatestCommit : Except ApiError LatestCommit
  createReleaseBranch : Except ApiError Unit
  createTagObject : Except ApiError String
  createReference : Except ApiError Unit
  getComparison : Except ApiError Comparison
  createRelease : Except ApiError CreateReleasePayload
  successCb : Except ApiError Unit
deriving DecidableEq, Repr

/-- A call the chain issues, with the request exactly as the
`PluginApiClient` builds it; `invokeSuccessCb` is the invocation of the
caller-supplied callback with its payload. -/
inductive RcCall
  | getLatestCommit (owner repo ref : String)
  | createReleaseBranch (owner repo ref sha : String)
  | createTagObject (owner repo tag message objectSha : String)
      (taggerName : String) (taggerEmail : Option String)
  | createReference (owner repo ref sha : String)
  | getComparison (owner repo base head : String)
  | createRelease (owner repo tag_name name target_commitish body : String)
      (prerelease : Bool)
  | invokeSuccessCb (comparisonUrl createdTag : String)
      (gitHubReleaseName : Option String) (gitHubReleaseUrl : String)
      (previousTag : Option String)
deriving DecidableEq, Repr

/-- An error surfaced by a flow: either the API error passed through, or a
`GitHubReleaseManagerError` with a rewritten domain message. -/
inductive RunError
  | api (e : ApiError)
  | manager (message : String)
deriving DecidableEq, Repr

/-- The rewrite `useCreateRc` applies to a failed create-release-branch
call: a known `"Reference already exists"` conflict becomes a domain
message naming the conflicting branch; anything else is rethrown. -/
def releaseBranchError (rcBranch : String) (e : ApiError) : RunError :=
  if e.bodyMessage = some "Reference already exists" then
    .manager ("Branch \"" ++ rcBranch ++ "\" already exists: .../tree/" ++
      rcBranch)
  else .api e

/-- The rewrite `useCreateRc` applies to a failed create-reference call. -/
def tagRefError (rcReleaseTag : String) (e : ApiError) : RunError :=
  if e.bodyMessage = some "Reference already exists" then
    .manager ("Tag reference \"" ++ rcReleaseTag ++ "\" already exists")
  else .api e

/-- The base of the comparison: the previous release's target branch, or the
default branch when the repository has no release yet. -/
def previousReleaseBranch (inp : RcInputs) : String :=
  match inp.latestRelease with
  | some r => r.targetCommitish
  | none => inp.defaultBranch

/-- The release body `useCreateRc` composes from the comparison. -/
def releaseBodyOf (comparisonHtmlUrl : String) (aheadBy : Nat)
    (createdRef : String) : String :=
  "**Compare** " ++ comparisonHtmlUrl ++ "\n\n**Ahead by** " ++
    toString aheadBy ++ " commits\n\n**Release branch** " ++ createdRef ++
    "\n\n---\n\n"

/-- The fixed message of every tag object the client creates. -/
def tagObjectMessage : String :=
  "Tag generated by your friendly neighborhood Backstage Release Manager"

/-- The control state of the chain: the first surfaced error (if any), the
calls issued so far and the values the completed steps produced. -/
structure RcState where
  error : Option RunError
  trace : List RcCall
  latestCommit : Option LatestCommit
  releaseBranchObjectSha : Option String
  tagSha : Option String
  createdRef : Option String
  releaseBody : Option String
  comparison : Option Comparison
  release : Option CreateReleasePayload
deriving DecidableEq, Repr

/-- The state before any step ran. -/
def rcInit : RcState := ⟨none, [], none, none, none, none, none, none, none⟩

/-- Step `i` of the chain: nothing happens once an earlier step errored;
otherwise the step issues its call, stores the value on success and the
(possibly rewritten) error on failure. -/
def rcStep (inp : RcInputs) (env : RcEnv) (st : RcState) (i : Nat) :
    RcState :=
  if st.error.isSome then st
  else if i = 0 then
    let call := RcCall.getLatestCommit inp.owner inp.repo inp.defaultBranch
    match env.getLatestCommit with
    | .ok latestCommit =>
      { st with trace := st.trace ++ [call], latestCommit := some latestCommit }
    | .error e => { st with trace := st.trace ++ [call], error := some (.api e) }
  else if i = 1 then
    match st.latestCommit with
    | none => st
    | some latestCommit =>
      let call := RcCall.createReleaseBranch inp.owner inp.repo
        ("refs/heads/" ++ inp.rcBranch) latestCommit.sha
      match env.createReleaseBranch with
      | .ok _ =>
        { st with
          trace := st.trace ++ [call]
          releaseBranchObjectSha := some latestCommit.sha }
      | .error e =>
        { st with
          trace := st.trace ++ [call]
          error := some (releaseBranchError inp.rcBranch e) }
  else if i = 2 then
    match st.releaseBranchObjectSha with
    | none => st
    | some objectSha =>
      let call := RcCall.createTagObject inp.owner inp.repo inp.rcReleaseTag
        tagObjectMessage objectSha inp.taggerName inp.taggerEmail
      match env.createTagObject with
      | .ok tagSha =>
        { st with trace := st.trace ++ [call], tagSha := some tagSha }
      | .error e =>
        { st with trace := st.trace ++ [call], error := some (.api e) }
  else if i = 3 then
    match st.tagSha with
    | none => st
    | some tagSha =>
      let call := RcCall.createReference inp.owner inp.repo
        ("refs/tags/" ++ inp.rcReleaseTag) tagSha
      match env.createReference with
      | .ok _ =>
        { st with
          trace := st.trace ++ [call]
          createdRef := some ("refs/tags/" ++ inp.rcReleaseTag) }
      | .error e =>
        { st with
          trace := st.trace ++ [call]
          error := some (tagRefError inp.rcReleaseTag e) }
  else if i = 4 then
    match st.createdRef with
    | none => st
    | some createdRef =>
      let call := RcCall.getComparison inp.owner inp.repo
        (previousReleaseBranch inp) inp.rcBranch
      match env.getComparison with
      | .ok comparison =>
        { st with
          trace := st.trace ++ [call]
          comparison := some comparison
          releaseBody := some (releaseBodyOf comparison.htmlUrl
            comparison.aheadBy createdRef) }
      | .error e =>
        { st with trace := st.trace ++ [call], error := some (.api e) }
  else if i = 5 then
    match st.releaseBody with
    | none => st
    | some releaseBody =>
      let call := RcCall.createRelease inp.owner inp.repo inp.rcReleaseTag
        inp.releaseName inp.rcBranch releaseBody true
      match env.createRelease with
      | .ok release =>
        { st with trace := st.trace ++ [call], release := some release }
      | .error e =>
        { st with trace := st.trace ++ [call], error := some (.api e) }
  else if i = 6 then
    if inp.hasSuccessCb then
      match st.release, st.comparison with
      | some release, some comparison =>
        let call := RcCall.invokeSuccessCb comparison.htmlUrl release.tagName
          release.name release.htmlUrl
          (inp.latestRelease.map (fun r => r.tagName))
        match env.successCb with
        | .ok _ => { st with trace := st.trace ++ [call] }
        | .error e =>
          { st with trace := st.trace ++ [call], error := some (.api e) }
      | _, _ => st
    else st
  else st

/-- The response-step entries step `i` appends (one on completion, none
otherwise), gated exactly as `rcStep` is. -/
def rcLogDelta (inp : RcInputs) (env : RcEnv) (st : RcState) (i : Nat) :
    List ResponseStep :=
  if st.error.isSome then []
  else if i = 0 then
    match env.getLatestCommit with
    | .ok latestCommit =>
      [⟨"Fetched latest commit from \"" ++ inp.defaultBranch ++ "\"",
        some ("with message \"" ++ latestCommit.message ++ "\""),
        some latestCommit.htmlUrl, none⟩]
    | .error _ => []
  else if i = 1 then
    match st.latestCommit with
    | none => []
    | some latestCommit =>
      match env.createReleaseBranch with
      | .ok _ =>
        [⟨"Created Release Branch",
          some ("with object sha \"" ++ latestCommit.sha ++ "\""), none, none⟩]
      | .error _ => []
  else if i = 2 then
    match st.releaseBranchObjectSha with
    | none => []
    | some _ =>
      match env.createTagObject with
      | .ok tagSha =>
        [⟨"Created Tag Object", some ("with sha \"" ++ tagSha ++ "\""),
          none, none⟩]
      | .error _ => []
  else if i = 3 then
    match st.tagSha with
    | none => []
    | some _ =>
      match env.createReference with
      | .ok _ =>
        [⟨"Cut Tag Reference",
          some ("with ref \"" ++ ("refs/tags/" ++ inp.rcReleaseTag) ++ "\""),
          none, none⟩]
      | .error _ => []
  else if i = 4 then
    match st.createdRef with
    | none => []
    | some _ =>
      match env.getComparison with
      | .ok comparison =>
        [⟨"Fetched commit comparison",
          some (previousReleaseBranch inp ++ "..." ++ inp.rcBranch),
          some comparison.htmlUrl, none⟩]
      | .error _ => []
  else if i = 5 then
    match st.releaseBody with
    | none => []
    | some _ =>
      match env.createRelease with
      | .ok release =>
        [⟨"Created Release Candidate \"" ++ jsShow release.name ++ "\"",
          some ("with tag \"" ++ inp.rcReleaseTag ++ "\""),
          some release.htmlUrl, none⟩]
      | .error _ => []
  else if i = 6 then
    if inp.hasSuccessCb then
      match st.release, st.comparison with
      | some _, some _ =>
        match env.successCb with
        | .ok _ =>
          [⟨"Success callback successfully called 🚀", none, none,
            some "success"⟩]
        | .error _ => []
      | _, _ => []
    else []
  else []

/-- One combined step on (control state, write-only log). -/
def rcStepFull (inp : RcInputs) (env : RcEnv)
    (p : RcState × List ResponseStep) (i : Nat) :
    RcState × List ResponseStep :=
  (rcStep inp env p.1 i, p.2 ++ rcLogDelta inp env p.1 i)

/-- The chain after its first `n` steps, from a given start. -/
def rcRunAux (inp : RcInputs) (env : RcEnv)
    (start : RcState × List ResponseStep) (n : Nat) :
    RcState × List ResponseStep :=
  (List.range n).foldl (rcStepFull inp env) start

/-- One full execution of the `useCreateRc` chain. -/
def runCreateRc (inp : RcInputs) (env : RcEnv) :
    RcState × List ResponseStep :=
  rcRunAux inp env (rcInit, []) 7

/-- The full ordered call list of the chain (the success-callback event only
when a callback was supplied); an execution's trace is always a prefix of
it. -/
def rcCanonicalCalls (inp : RcInputs) (env : RcEnv) : List RcCall :=
  let latestCommit := match env.getLatestCommit with
    | .ok c => c
    | .error _ => ⟨"", "", ""⟩
  let tagSha := match env.createTagObject with
    | .ok s => s
    | .error _ => ""
  let comparison := match env.getComparison with
    | .ok c => c
    | .error _ => ⟨"", 0⟩
  let release := match env.createRelease with
    | .ok r => r
    | .error _ => ⟨none, "", ""⟩
  let createdRef := "refs/tags/" ++ inp.rcReleaseTag
  [RcCall.getLatestCommit inp.owner inp.repo inp.defaultBranch,
   RcCall.createReleaseBranch inp.owner inp.repo
     ("refs/heads/" ++ inp.rcBranch) latestCommit.sha,
   RcCall.createTagObject inp.owner inp.repo inp.rcReleaseTag
     tagObjectMessage latestCommit.sha inp.taggerName inp.taggerEmail,
   RcCall.createReference inp.owner inp.repo createdRef tagSha,
   RcCall.getComparison inp.owner inp.repo (previousReleaseBranch inp)
     inp.rcBranch,
   RcCall.createRelease inp.owner inp.repo inp.rcReleaseTag inp.releaseName
     inp.rcBranch
     (releaseBodyOf comparison.htmlUrl comparison.aheadBy createdRef) true]
  ++ (if inp.hasSuccessCb then
      [RcCall.invokeSuccessCb comparison.htmlUrl release.tagName release.name
        release.htmlUrl (inp.latestRelease.map (fun r => r.tagName))]
    else [])

/-- Step `i`'s own outcome succeeded (for the callback step: a callback was
supplied and it succeeded). -/
def rcStepOk (inp : RcInputs) (env : RcEnv) : Nat → Bool
  | 0 => okB env.getLatestCommit
  | 1 => okB env.createReleaseBranch
  | 2 => okB env.createTagObject
  | 3 => okB env.createReference
  | 4 => okB env.getComparison
  | 5 => okB env.createRelease
  | 6 => inp.hasSuccessCb && okB env.successCb
  | _ => false

/-- Step `n` completed: it and every step before it succeeded. -/
def rcCompleted (inp : RcInputs) (env : RcEnv) (n : Nat) : Bool :=
  n < 7 && (List.range (n + 1)).all (rcStepOk inp env)

/-- `TOTAL_STEPS`: six, plus one when a success callback was supplied. -/
def rcTotalSteps (inp : RcInputs) : Nat :=
  6 + (if inp.hasSuccessCb then 1 else 0)

/-- The progress percentage computed from the response-step log:
`(responseSteps.length / TOTAL_STEPS) * 100`. -/
def progressOf (inp : RcInputs) (responseSteps : List ResponseStep) : ℚ :=
  ((responseSteps.length : ℚ) / (rcTotalSteps inp : ℚ)) * 100

/-! ## Structural lemmas on the chain -/

theorem rcRunAux_succ (inp : RcInputs) (env : RcEnv)
    (start : RcState × List ResponseStep) (n : Nat) :
    rcRunAux inp env start (n + 1) =
      rcStepFull inp env (rcRunAux inp env start n) n := by
  simp [rcRunAux, List.range_succ]

theorem runCreateRc_eq (inp : RcInputs) (env : RcEnv) :
    runCreateRc inp env =
      rcStepFull inp env (rcStepFull inp env (rcStepFull inp env
        (rcStepFull inp env (rcStepFull inp env (rcStepFull inp env
          (rcStepFull inp env (rcInit, []) 0) 1) 2) 3) 4) 5) 6 := rfl

/-- Every execution's trace is a prefix of the canonical ordered call
list. -/
theorem rcTracePrefix (inp : RcInputs) (env : RcEnv) :
    (runCreateRc inp env).1.trace <+: rcCanonicalCalls inp env := by
  obtain ⟨glc, crb, cto, crf, cmp, crl, scb⟩ := env
  cases glc with
  | error e =>
    simp [runCreateRc_eq, rcStepFull, rcStep, rcInit, rcCanonicalCalls]
  | ok c =>
    cases crb with
    | error e =>
      simp [runCreateRc_eq, rcStepFull, rcStep, rcInit, rcCanonicalCalls]
    | ok u =>
      cases cto with
      | error e =>
        simp [runCreateRc_eq, rcStepFull, rcStep, rcInit, rcCanonicalCalls]
      | ok tagSha =>
        cases crf with
        | error e =>
          simp [runCreateRc_eq, rcStepFull, rcStep, rcInit, rcCanonicalCalls]
        | ok u2 =>
          cases cmp with
          | error e =>
            simp [runCreateRc_eq, rcStepFull, rcStep, rcInit,
              rcCanonicalCalls]
          | ok comparison =>
            cases crl with
            | error e =>
              simp [runCreateRc_eq, rcStepFull, rcStep, rcInit,
                rcCanonicalCalls]
            | ok release =>
              cases hcb : inp.hasSuccessCb with
              | false =>
                simp [runCreateRc_eq, rcStepFull, rcStep, rcInit,
                  rcCanonicalCalls, hcb]
              | true =>
                cases scb <;>
                  simp [runCreateRc_eq, rcStepFull, rcStep, rcInit,
                    rcCanonicalCalls, hcb]

/-- A call with a later position in the chain is issued only when every
step before it succeeded. -/
theorem rcTraceGating (inp : RcInputs) (env : RcEnv) :
    ∀ i, i + 1 < (runCreateRc inp env).1.trace.length →
      rcStepOk inp env i = true := by
  obtain ⟨glc, crb, cto, crf, cmp, crl, scb⟩ := env
  cases glc with
  | error e =>
    intro i hi
    simp [runCreateRc_eq, rcStepFull, rcStep, rcInit] at hi
  | ok c =>
    cases crb with
    | error e =>
      intro i hi
      simp [runCreateRc_eq, rcStepFull, rcStep, rcInit] at hi
      have hub : i < 6 := by omega
      interval_cases i <;> simp_all [rcStepOk]
    | ok u =>
      cases cto with
      | error e =>
        intro i hi
        simp [runCreateRc_eq, rcStepFull, rcStep, rcInit] at hi
        have hub : i < 6 := by omega
        interval_cases i <;> simp_all [rcStepOk]
      | ok tagSha =>
        cases crf with
        | error e =>
          intro i hi
          simp [runCreateRc_eq, rcStepFull, rcStep, rcInit] at hi
          have hub : i < 6 := by omega
          interval_cases i <;> simp_all [rcStepOk]
        | ok u2 =>
          cases cmp with
          | error e =>
            intro i hi
            simp [runCreateRc_eq, rcStepFull, rcStep, rcInit] at hi
            have hub : i < 6 := by omega
            interval_cases i <;> simp_all [rcStepOk]
          | ok comparison =>
            cases crl with
            | error e =>
              intro i hi
              simp [runCreateRc_eq, rcStepFull, rcStep, rcInit] at hi
              have hub : i < 6 := by omega
              interval_cases i <;> simp_all [rcStepOk]
            | ok release =>
              cases hcb : inp.hasSuccessCb with
              | false =>
                intro i hi
                simp [runCreateRc_eq, rcStepFull, rcStep, rcInit, hcb] at hi
                have hub : i < 6 := by omega
                interval_cases i <;> simp_all [rcStepOk]
              | true =>
                cases scb <;>
                  (intro i hi
                   simp [runCreateRc_eq, rcStepFull, rcStep, rcInit, hcb] at hi
                   have hub : i < 6 := by omega
                   interval_cases i <;> simp_all [rcStepOk])

/-- When every step of the configured chain succeeds, the trace is the full
canonical call list. -/
theorem rcTraceComplete (inp : RcInputs) (env : RcEnv)
    (h : ∀ i, i < rcTotalSteps inp → rcStepOk inp env i = true) :
    (runCreateRc inp env).1.trace = rcCanonicalCalls inp env := by
  have h6 : 6 ≤ rcTotalSteps inp := by
    cases hc : inp.hasSuccessCb <;> simp [rcTotalSteps, hc]
  obtain ⟨glc, crb, cto, crf, cmp, crl, scb⟩ := env
  cases glc with
  | error e => have h0 := h 0 (by omega); simp [rcStepOk] at h0
  | ok c =>
    cases crb with
    | error e => have h1 := h 1 (by omega); simp [rcStepOk] at h1
    | ok u =>
      cases cto with
      | error e => have h2 := h 2 (by omega); simp [rcStepOk] at h2
      | ok tagSha =>
        cases crf with
        | error e => have h3 := h 3 (by omega); simp [rcStepOk] at h3
        | ok u2 =>
          cases cmp with
          | error e => have h4 := h 4 (by omega); simp [rcStepOk] at h4
          | ok comparison =>
            cases crl with
            | error e => have h5 := h 5 (by omega); simp [rcStepOk] at h5
            | ok release =>
              cases hcb : inp.hasSuccessCb with
              | false =>
                simp [runCreateRc_eq, rcStepFull, rcStep, rcInit,
                  rcCanonicalCalls, hcb]
              | true =>
                cases scb with
                | error e =>
                  have h6' := h 6 (by simp [rcTotalSteps, hcb])
                  simp [rcStepOk, hcb] at h6'
                | ok u3 =>
                  simp [runCreateRc_eq, rcStepFull, rcStep, rcInit,
                    rcCanonicalCalls, hcb]

/-- C1: the release-candidate chain issues its network calls in the strict
canonical order (latest commit, release branch at that sha, annotated tag
object at that sha, tag reference, comparison, prerelease built from the
comparison, success callback): every trace is a prefix of the canonical
call list, a call runs only when every step before it succeeded, and when
every configured step succeeds the whole list is issued. -/
theorem createRcCallsInOrder :
    ∀ (inp : RcInputs) (env : RcEnv),
      (runCreateRc inp env).1.trace <+: rcCanonicalCalls inp env ∧
      (∀ i, i + 1 < (runCreateRc inp env).1.trace.length →
        rcStepOk inp env i = true) ∧
      ((∀ i, i < rcTotalSteps inp → rcStepOk inp env i = true) →
        (runCreateRc inp env).1.trace = rcCanonicalCalls inp env) :=
  fun inp env =>
    ⟨rcTracePrefix inp env, rcTraceGating inp env,
      fun h => rcTraceComplete inp env h⟩

/-- C2: when the create-release-branch step fails with GitHub's
`"Reference already exists"` conflict, the surfaced error is the domain
message naming the conflicting release branch, and the chain stops: the
trace ends at the branch-creation call, so no tag-object, tag-reference,
comparison or release call is issued. -/
theorem createRcBranchConflictShortCircuit :
    ∀ (inp : RcInputs) (env : RcEnv) (c : LatestCommit) (e : ApiError),
      env.getLatestCommit = .ok c →
      env.createReleaseBranch = .error e →
      e.bodyMessage = some "Reference already exists" →
      (runCreateRc inp env).1.error =
        some (.manager ("Branch \"" ++ inp.rcBranch ++
          "\" already exists: .../tree/" ++ inp.rcBranch)) ∧
      (runCreateRc inp env).1.trace =
        [.getLatestCommit inp.owner inp.repo inp.defaultBranch,
         .createReleaseBranch inp.owner inp.repo
           ("refs/heads/" ++ inp.rcBranch) c.sha] := by
  intro inp env c e h1 h2 h3
  simp [runCreateRc_eq, rcStepFull, rcStep, rcInit, h1, h2,
    releaseBranchError, h3]

/-- Inputs of the concrete conflict run used as C2's witness. -/
def conflictInp : RcInputs :=
  ⟨"o", "r", "main", none, "rc/1.2.3", "rc-1.2.3", "Version 1.2.3",
    "alice", none, false⟩

/-- Environment of the concrete conflict run used as C2's witness. -/
def conflictEnv : RcEnv :=
  ⟨.ok ⟨"sha0", "url0", "m0"⟩,
    .error ⟨422, "Validation Failed", some "Reference already exists"⟩,
    .ok "t", .ok (), .ok ⟨"cu", 0⟩, .ok ⟨none, "ru", "rt"⟩, .ok ()⟩

/-- C2, witness: the conflict short-circuit at a concrete input. -/
theorem createRcBranchConflictShortCircuitWitness :
    (runCreateRc conflictInp conflictEnv).1.error =
      some (.manager ("Branch \"" ++ conflictInp.rcBranch ++
        "\" already exists: .../tree/" ++ conflictInp.rcBranch)) ∧
    (runCreateRc conflictInp conflictEnv).1.trace =
      [.getLatestCommit conflictInp.owner conflictInp.repo
         conflictInp.defaultBranch,
       .createReleaseBranch conflictInp.owner conflictInp.repo
         ("refs/heads/" ++ conflictInp.rcBranch) "sha0"] :=
  createRcBranchConflictShortCircuit conflictInp conflictEnv
    ⟨"sha0", "url0", "m0"⟩
    ⟨422, "Validation Failed", some "Reference already exists"⟩ rfl rfl rfl

/-! ## The response-step log and the progress percentage -/

theorem rcRunAuxEval0 (inp : RcInputs) (env : RcEnv)
    (start : RcState × List ResponseStep) :
    rcRunAux inp env start 0 = start := rfl

theorem rcRunAuxEval1 (inp : RcInputs) (env : RcEnv)
    (start : RcState × List ResponseStep) :
    rcRunAux inp env start 1 = rcStepFull inp env start 0 := rfl

theorem rcRunAuxEval2 (inp : RcInputs) (env : RcEnv)
    (start : RcState × List ResponseStep) :
    rcRunAux inp env start 2 =
      rcStepFull inp env (rcStepFull inp env start 0) 1 := rfl

theorem rcRunAuxEval3 (inp : RcInputs) (env : RcEnv)
    (start : RcState × List ResponseStep) :
    rcRunAux inp env start 3 =
      rcStepFull inp env (rcStepFull inp env (rcStepFull inp env start 0) 1)
        2 := rfl

theorem rcRunAuxEval4 (inp : RcInputs) (env : RcEnv)
    (start : RcState × List ResponseStep) :
    rcRunAux inp env start 4 =
      rcStepFull inp env (rcStepFull inp env (rcStepFull inp env
        (rcStepFull inp env start 0) 1) 2) 3 := rfl

theorem rcRunAuxEval5 (inp : RcInputs) (env : RcEnv)
    (start : RcState × List ResponseStep) :
    rcRunAux inp env start 5 =
      rcStepFull inp env (rcStepFull inp env (rcStepFull inp env
        (rcStepFull inp env (rcStepFull inp env start 0) 1) 2) 3) 4 := rfl

theorem rcRunAuxEval6 (inp : RcInputs) (env : RcEnv)
    (start : RcState × List ResponseStep) :
    rcRunAux inp env start 6 =
      rcStepFull inp env (rcStepFull inp env (rcStepFull inp env
        (rcStepFull inp env (rcStepFull inp env (rcStepFull inp env start 0)
          1) 2) 3) 4) 5 := rfl

/-- The log is written through, never read: running from any initial log
yields the same control state, and the final log is the initial one with
the run's own entries appended. -/
theorem rcRunAuxLog (inp : RcInputs) (env : RcEnv) (s : RcState)
    (l : List ResponseStep) (n : Nat) :
    rcRunAux inp env (s, l) n =
      ((rcRunAux inp env (s, []) n).1,
        l ++ (rcRunAux inp env (s, []) n).2) := by
  induction n with
  | zero => simp [rcRunAux]
  | succ n ih =>
    rw [rcRunAux_succ, rcRunAux_succ, ih]
    simp [rcStepFull]

theorem rcCompletedEval0 (inp : RcInputs) (env : RcEnv) :
    rcCompleted inp env 0 = (rcStepOk inp env 0 && true) := rfl

theorem rcCompletedEval1 (inp : RcInputs) (env : RcEnv) :
    rcCompleted inp env 1 =
      (rcStepOk inp env 0 && (rcStepOk inp env 1 && true)) := rfl

theorem rcCompletedEval2 (inp : RcInputs) (env : RcEnv) :
    rcCompleted inp env 2 =
      (rcStepOk inp env 0 && (rcStepOk inp env 1 &&
        (rcStepOk inp env 2 && true))) := rfl

theorem rcCompletedEval3 (inp : RcInputs) (env : RcEnv) :
    rcCompleted inp env 3 =
      (rcStepOk inp env 0 && (rcStepOk inp env 1 && (rcStepOk inp env 2 &&
        (rcStepOk inp env 3 && true)))) := rfl

theorem rcCompletedEval4 (inp : RcInputs) (env : RcEnv) :
    rcCompleted inp env 4 =
      (rcStepOk inp env 0 && (rcStepOk inp env 1 && (rcStepOk inp env 2 &&
        (rcStepOk inp env 3 && (rcStepOk inp env 4 && true))))) := rfl

theorem rcCompletedEval5 (inp : RcInputs) (env : RcEnv) :
    rcCompleted inp env 5 =
      (rcStepOk inp env 0 && (rcStepOk inp env 1 && (rcStepOk inp env 2 &&
        (rcStepOk inp env 3 && (rcStepOk inp env 4 &&
          (rcStepOk inp env 5 && true)))))) := rfl

theorem rcCompletedEval6 (inp : RcInputs) (env : RcEnv) :
    rcCompleted inp env 6 =
      (rcStepOk inp env 0 && (rcStepOk inp env 1 && (rcStepOk inp env 2 &&
        (rcStepOk inp env 3 && (rcStepOk inp env 4 && (rcStepOk inp env 5 &&
          (rcStepOk inp env 6 && true))))))) := rfl

/-- The entries a step appends: one exactly when the step completed. -/
theorem rcLogDeltaLength (inp : RcInputs) (env : RcEnv) (n : Nat) :
    (rcLogDelta inp env (rcRunAux inp env (rcInit, []) n).1 n).length =
      if rcCompleted inp env n then 1 else 0 := by
  obtain ⟨glc, crb, cto, crf, cmp, crl, scb⟩ := env
  rcases Nat.lt_or_ge n 7 with hn | hn
  · interval_cases n
    · cases glc <;>
        simp [rcRunAuxEval0, rcLogDelta, rcInit, rcCompletedEval0, rcStepOk]
    · cases glc <;> cases crb <;>
        simp [rcRunAuxEval1, rcStepFull, rcStep, rcLogDelta, rcInit,
          rcCompletedEval1, rcStepOk]
    · cases glc <;> cases crb <;> cases cto <;>
        simp [rcRunAuxEval2, rcStepFull, rcStep, rcLogDelta, rcInit,
          rcCompletedEval2, rcStepOk]
    · cases glc <;> cases crb <;> cases cto <;> cases crf <;>
        simp [rcRunAuxEval3, rcStepFull, rcStep, rcLogDelta, rcInit,
          rcCompletedEval3, rcStepOk]
    · cases glc <;> cases crb <;> cases cto <;> cases crf <;> cases cmp <;>
        simp [rcRunAuxEval4, rcStepFull, rcStep, rcLogDelta, rcInit,
          rcCompletedEval4, rcStepOk]
    · cases glc <;> cases crb <;> cases cto <;> cases crf <;> cases cmp <;>
        cases crl <;>
        simp [rcRunAuxEval5, rcStepFull, rcStep, rcLogDelta, rcInit,
          rcCompletedEval5, rcStepOk]
    · cases hcb : inp.hasSuccessCb with
      | false =>
        by_cases hst :
            ((rcRunAux inp ⟨glc, crb, cto, crf, cmp, crl, scb⟩
              (rcInit, []) 6).1).error.isSome <;>
          simp [rcLogDelta, hst, rcCompletedEval6, rcStepOk, hcb]
      | true =>
        cases glc with
        | error e =>
          simp [rcRunAuxEval6, rcStepFull, rcStep, rcLogDelta, rcInit,
            rcCompletedEval6, rcStepOk, hcb]
        | ok c =>
          cases crb with
          | error e =>
            simp [rcRunAuxEval6, rcStepFull, rcStep, rcLogDelta, rcInit,
              rcCompletedEval6, rcStepOk, hcb]
          | ok u =>
            cases cto with
            | error e =>
              simp [rcRunAuxEval6, rcStepFull, rcStep, rcLogDelta, rcInit,
                rcCompletedEval6, rcStepOk, hcb]
            | ok tagSha =>
              cases crf with
              | error e =>
                simp [rcRunAuxEval6, rcStepFull, rcStep, rcLogDelta, rcInit,
                  rcCompletedEval6, rcStepOk, hcb]
              | ok u2 =>
                cases cmp with
                | error e =>
                  simp [rcRunAuxEval6, rcStepFull, rcStep, rcLogDelta,
                    rcInit, rcCompletedEval6, rcStepOk, hcb]
                | ok comparison =>
                  cases crl with
                  | error e =>
                    simp [rcRunAuxEval6, rcStepFull, rcStep, rcLogDelta,
                      rcInit, rcCompletedEval6, rcStepOk, hcb]
                  | ok release =>
                    cases scb <;>
                      simp [rcRunAuxEval6, rcStepFull, rcStep, rcLogDelta,
                        rcInit, rcCompletedEval6, rcStepOk, hcb]
  · have h0 : n ≠ 0 := by omega
    have h1 : n ≠ 1 := by omega
    have h2 : n ≠ 2 := by omega
    have h3 : n ≠ 3 := by omega
    have h4 : n ≠ 4 := by omega
    have h5 : n ≠ 5 := by omega
    have h6 : n ≠ 6 := by omega
    have h7 : ¬ n < 7 := by omega
    by_cases hst :
        ((rcRunAux inp ⟨glc, crb, cto, crf, cmp, crl, scb⟩
          (rcInit, []) n).1).error.isSome <;>
      simp [rcLogDelta, h0, h1, h2, h3, h4, h5, h6, h7, hst, rcCompleted]

/-- The log's length is the number of completed steps. -/
theorem rcLogLength (inp : RcInputs) (env : RcEnv) (n : Nat) :
    (rcRunAux inp env (rcInit, []) n).2.length =
      (List.range n).countP (fun k => rcCompleted inp env k) := by
  induction n with
  | zero => simp [rcRunAux]
  | succ n ih =>
    rw [rcRunAux_succ, List.range_succ]
    simp [rcStepFull, List.countP_append, ih, rcLogDeltaLength,
      List.countP_cons]

/-- C7: during a release-candidate run the `ResponseStep` log is
write-only and append-only — starting from any initial log yields the same
control state (the entries never influence control flow) and only appends
to it, each stage's log is a prefix of the next stage's, every completed
step appends exactly one entry — and the reported progress always equals
the number of completed steps divided by the total number of steps times
100, where the total is 6 without a success callback and 7 with one. -/
theorem createRcResponseLog :
    ∀ (inp : RcInputs) (env : RcEnv) (startLog : List ResponseStep)
      (n : Nat),
      (rcRunAux inp env (rcInit, startLog) n).1 =
        (rcRunAux inp env (rcInit, []) n).1 ∧
      (rcRunAux inp env (rcInit, startLog) n).2 =
        startLog ++ (rcRunAux inp env (rcInit, []) n).2 ∧
      (rcRunAux inp env (rcInit, []) n).2 <+:
        (rcRunAux inp env (rcInit, []) (n + 1)).2 ∧
      (rcRunAux inp env (rcInit, []) (n + 1)).2.length =
        (rcRunAux inp env (rcInit, []) n).2.length +
          (if rcCompleted inp env n then 1 else 0) ∧
      progressOf inp (rcRunAux inp env (rcInit, []) n).2 =
        (((List.range n).countP (fun k => rcCompleted inp env k) : ℚ) /
          (rcTotalSteps inp : ℚ)) * 100 ∧
      rcTotalSteps inp = 6 + (if inp.hasSuccessCb then 1 else 0) := by
  intro inp env startLog n
  have hlog := rcRunAuxLog inp env rcInit startLog n
  refine ⟨by rw [hlog], by rw [hlog], ?_, ?_, ?_, rfl⟩
  · rw [rcRunAux_succ]
    simp only [rcStepFull]
    exact List.prefix_append _ _
  · rw [rcRunAux_succ]
    simp [rcStepFull, rcLogDeltaLength]
  · simp [progressOf, rcLogLength]

/-! ## The patch (cherry-pick) sequence

The per-call requests below (commit messages, force flags, ref names, the
updated release body) are built exactly as the `patch` namespace of the
`PluginApiClient` builds them.  The driver hook that sequences the calls is
not under `src/`; the order of the steps, the merge's base/head, the
cherry-pick commit's parent, the bumped tag and the provenance suffix are
modelled from the spec (§4.2, §8). -/

/-- Parsed components of a tag name: the `rc`/`version` marker and the
numeric components, the last of which is the patch-like component. -/
structure SemverTagParts where
  tagKind : String
  major : Nat
  minor : Nat
  patch : Nat
deriving DecidableEq, Repr

/-- Render tag parts back into a tag name. -/
def semverTagOf (p : SemverTagParts) : String :=
  p.tagKind ++ "-" ++ toString p.major ++ "." ++ toString p.minor ++ "." ++
    toString p.patch

/-- Modelled from the spec: the bumped parts — the patch component exactly
one greater (§8; the `getBumpedTag` helper is not under `src/`). -/
def bumpPatchParts (p : SemverTagParts) : SemverTagParts :=
  ⟨p.tagKind, p.major, p.minor, p.patch + 1⟩

/-- The bumped tag the patch sequence creates. -/
def bumpedPatchTag (p : SemverTagParts) : String :=
  semverTagOf (bumpPatchParts p)

/-- Modelled from the spec: the fixed suffix appended to the cherry-pick
commit's message, identifying the origin commit (the driver hook supplying
`messageSuffix` is not under `src/`). -/
def patchMessageSuffixOf (selectedCommitSha : String) : String :=
  "Original commit: " ++ selectedCommitSha

/-- The body `patch.updateRelease` appends to the existing release. -/
def patchReleaseBody (latestReleaseBody : Option String) (patchNumber : Nat)
    (commitHtmlUrl commitMessage : String) : String :=
  jsShow latestReleaseBody ++ "\n\n#### [Patch " ++ toString patchNumber ++
    "](" ++ commitHtmlUrl ++ ")\n  \n" ++ commitMessage

/-- Inputs of the patch sequence: the project, the current tag's parts, the
release branch (name, tree sha), the selected commit and the release to
update. -/
structure PatchInputs where
  owner : String
  repo : String
  tagParts : SemverTagParts
  releaseBranchName : String
  releaseBranchTreeSha : String
  selectedCommitSha : String
  selectedCommitMessage : String
  selectedCommitHtmlUrl : String
  selectedCommitFirstParentSha : Option String
  latestReleaseId : Nat
  latestReleaseBody : Option String
deriving DecidableEq, Repr

/-- The merge data `patch.merge` returns. -/
structure MergeInfo where
  htmlUrl : String
  commitMessage : String
  treeSha : String
deriving DecidableEq, Repr

/-- One outcome per endpoint the patch sequence may hit.  The two
force-updates of the branch head return echoes of the request, so only
failure is environment-chosen for them. -/
structure PatchEnv where
  createTempCommit : Except ApiError String
  forceBranchHeadToTempCommit : Except ApiError Unit
  merge : Except ApiError MergeInfo
  createCherryPickCommit : Except ApiError String
  replaceTempCommit : Except ApiError Unit
  createTagObject : Except ApiError String
  createReference : Except ApiError Unit
  updateRelease : Except ApiError UpdatedReleasePayload
deriving DecidableEq, Repr

/-- A call the patch sequence issues, with the request as the client builds
it. -/
inductive PatchCall
  | createCommit (owner repo message tree : String) (parents : List String)
  | updateRef (owner repo ref sha : String) (force : Bool)
  | merge (owner repo base head : String)
  | createTag (owner repo tag message objectSha : String)
  | createRef (owner repo ref sha : String)
  | updateRelease (owner repo : String) (release_id : Nat)
      (tag_name body : String)
deriving DecidableEq, Repr

/-- What one execution of the patch sequence did. -/
structure PatchRun where
  trace : List PatchCall
  error : Option ApiError
deriving DecidableEq, Repr

/-- The patch sequence: temp commit on the branch's tree, force-update the
branch head to it, merge the branch (now at the temp commit) with the
selected commit, create the real cherry-pick commit from the merge tree,
force-update the branch head again, create the bumped annotated tag, create
its reference, and update the existing release's tag and body.  Each step
runs only after the previous one succeeded; there is no rollback. -/
def runPatch (inp : PatchInputs) (env : PatchEnv) : PatchRun :=
  let bumpedTag := bumpedPatchTag inp.tagParts
  let bumpedParts := bumpPatchParts inp.tagParts
  let c1 := PatchCall.createCommit inp.owner inp.repo
    ("Temporary commit for patch " ++ toString bumpedParts.patch)
    inp.releaseBranchTreeSha [inp.selectedCommitFirstParentSha.getD ""]
  match env.createTempCommit with
  | .error e => ⟨[c1], some e⟩
  | .ok tempCommitSha =>
    let c2 := PatchCall.updateRef inp.owner inp.repo
      ("heads/" ++ inp.releaseBranchName) tempCommitSha true
    match env.forceBranchHeadToTempCommit with
    | .error e => ⟨[c1, c2], some e⟩
    | .ok _ =>
      let c3 := PatchCall.merge inp.owner inp.repo inp.releaseBranchName
        inp.selectedCommitSha
      match env.merge with
      | .error e => ⟨[c1, c2, c3], some e⟩
      | .ok mergeRes =>
        let c4 := PatchCall.createCommit inp.owner inp.repo
          ("[patch " ++ bumpedTag ++ "] " ++ inp.selectedCommitMessage ++
            "\n\n" ++ patchMessageSuffixOf inp.selectedCommitSha)
          mergeRes.treeSha [tempCommitSha]
        match env.createCherryPickCommit with
        | .error e => ⟨[c1, c2, c3, c4], some e⟩
        | .ok cherryPickSha =>
          let c5 := PatchCall.updateRef inp.owner inp.repo
            ("heads/" ++ inp.releaseBranchName) cherryPickSha true
          match env.replaceTempCommit with
          | .error e => ⟨[c1, c2, c3, c4, c5], some e⟩
          | .ok _ =>
            let c6 := PatchCall.createTag inp.owner inp.repo bumpedTag
              tagObjectMessage cherryPickSha
            match env.createTagObject with
            | .error e => ⟨[c1, c2, c3, c4, c5, c6], some e⟩
            | .ok tagObjectSha =>
              let c7 := PatchCall.createRef inp.owner inp.repo
                ("refs/tags/" ++ bumpedTag) tagObjectSha
              match env.createReference with
              | .error e => ⟨[c1, c2, c3, c4, c5, c6, c7], some e⟩
              | .ok _ =>
                let c8 := PatchCall.updateRelease inp.owner inp.repo
                  inp.latestReleaseId bumpedTag
                  (patchReleaseBody inp.latestReleaseBody bumpedParts.patch
                    inp.selectedCommitHtmlUrl inp.selectedCommitMessage)
                match env.updateRelease with
                | .error e => ⟨[c1, c2, c3, c4, c5, c6, c7, c8], some e⟩
                | .ok _ => ⟨[c1, c2, c3, c4, c5, c6, c7, c8], none⟩

/-- The value of a successful outcome, with a default for failures. -/
def exValD {ε α : Type} (d : α) : Except ε α → α
  | .ok a => a
  | .error _ => d

/-- The full ordered call list of the patch sequence; an execution's trace
is always a prefix of it. -/
def patchCanonicalCalls (inp : PatchInputs) (env : PatchEnv) :
    List PatchCall :=
  let bumpedTag := bumpedPatchTag inp.tagParts
  let bumpedParts := bumpPatchParts inp.tagParts
  let tempCommitSha := exValD "" env.createTempCommit
  let mergeRes := exValD ⟨"", "", ""⟩ env.merge
  let cherryPickSha := exValD "" env.createCherryPickCommit
  let tagObjectSha := exValD "" env.createTagObject
  [PatchCall.createCommit inp.owner inp.repo
     ("Temporary commit for patch " ++ toString bumpedParts.patch)
     inp.releaseBranchTreeSha [inp.selectedCommitFirstParentSha.getD ""],
   PatchCall.updateRef inp.owner inp.repo
     ("heads/" ++ inp.releaseBranchName) tempCommitSha true,
   PatchCall.merge inp.owner inp.repo inp.releaseBranchName
     inp.selectedCommitSha,
   PatchCall.createCommit inp.owner inp.repo
     ("[patch " ++ bumpedTag ++ "] " ++ inp.selectedCommitMessage ++
       "\n\n" ++ patchMessageSuffixOf inp.selectedCommitSha)
     mergeRes.treeSha [tempCommitSha],
   PatchCall.updateRef inp.owner inp.repo
     ("heads/" ++ inp.releaseBranchName) cherryPickSha true,
   PatchCall.createTag inp.owner inp.repo bumpedTag tagObjectMessage
     cherryPickSha,
   PatchCall.createRef inp.owner inp.repo ("refs/tags/" ++ bumpedTag)
     tagObjectSha,
   PatchCall.updateRelease inp.owner inp.repo inp.latestReleaseId bumpedTag
     (patchReleaseBody inp.latestReleaseBody bumpedParts.patch
       inp.selectedCommitHtmlUrl inp.selectedCommitMessage)]

/-- Step `i`'s own outcome succeeded. -/
def patchStepOk (env : PatchEnv) : Nat → Bool
  | 0 => okB env.createTempCommit
  | 1 => okB env.forceBranchHeadToTempCommit
  | 2 => okB env.merge
  | 3 => okB env.createCherryPickCommit
  | 4 => okB env.replaceTempCommit
  | 5 => okB env.createTagObject
  | 6 => okB env.createReference
  | 7 => okB env.updateRelease
  | _ => false

/-- C6: the patch sequence issues its calls in the strict canonical order —
temp commit on the branch's tree, force-update of the branch head, merge,
cherry-pick commit from the merge tree with the composed message (original
message plus the provenance suffix), second force-update, bumped annotated
tag, its reference, and the release update — every trace is a prefix of the
canonical call list, a call runs only when every step before it succeeded,
and when all eight steps succeed the whole list is issued. -/
theorem patchSequence :
    ∀ (inp : PatchInputs) (env : PatchEnv),
      (runPatch inp env).trace <+: patchCanonicalCalls inp env ∧
      (∀ i, i + 1 < (runPatch inp env).trace.length →
        patchStepOk env i = true) ∧
      ((∀ i, i < 8 → patchStepOk env i = true) →
        (runPatch inp env).trace = patchCanonicalCalls inp env ∧
        (runPatch inp env).error = none) := by
  intro inp env
  obtain ⟨s1, s2, s3, s4, s5, s6, s7, s8⟩ := env
  refine ⟨?_, ?_, ?_⟩
  · cases s1 with
    | error e => simp [runPatch, patchCanonicalCalls, exValD]
    | ok tempCommitSha =>
      cases s2 with
      | error e => simp [runPatch, patchCanonicalCalls, exValD]
      | ok u1 =>
        cases s3 with
        | error e => simp [runPatch, patchCanonicalCalls, exValD]
        | ok mergeRes =>
          cases s4 with
          | error e => simp [runPatch, patchCanonicalCalls, exValD]
          | ok cherryPickSha =>
            cases s5 with
            | error e => simp [runPatch, patchCanonicalCalls, exValD]
            | ok u2 =>
              cases s6 with
              | error e => simp [runPatch, patchCanonicalCalls, exValD]
              | ok tagObjectSha =>
                cases s7 with
                | error e => simp [runPatch, patchCanonicalCalls, exValD]
                | ok u3 =>
                  cases s8 <;> simp [runPatch, patchCanonicalCalls, exValD]
  · cases s1 with
    | error e =>
      intro i hi
      simp [runPatch] at hi
    | ok tempCommitSha =>
      cases s2 with
      | error e =>
        intro i hi
        simp [runPatch] at hi
        have hub : i < 7 := by omega
        interval_cases i <;> simp_all [patchStepOk]
      | ok u1 =>
        cases s3 with
        | error e =>
          intro i hi
          simp [runPatch] at hi
          have hub : i < 7 := by omega
          interval_cases i <;> simp_all [patchStepOk]
        | ok mergeRes =>
          cases s4 with
          | error e =>
            intro i hi
            simp [runPatch] at hi
            have hub : i < 7 := by omega
            interval_cases i <;> simp_all [patchStepOk]
          | ok cherryPickSha =>
            cases s5 with
            | error e =>
              intro i hi
              simp [runPatch] at hi
              have hub : i < 7 := by omega
              interval_cases i <;> simp_all [patchStepOk]
            | ok u2 =>
              cases s6 with
              | error e =>
                intro i hi
                simp [runPatch] at hi
                have hub : i < 7 := by omega
                interval_cases i <;> simp_all [patchStepOk]
              | ok tagObjectSha =>
                cases s7 with
                | error e =>
                  intro i hi
                  simp [runPatch] at hi
                  have hub : i < 7 := by omega
                  interval_cases i <;> simp_all [patchStepOk]
                | ok u3 =>
                  cases s8 <;>
                    (intro i hi
                     simp [runPatch] at hi
                     have hub : i < 7 := by omega
                     interval_cases i <;> simp_all [patchStepOk])
  · intro h
    cases s1 with
    | error e => have hx := h 0 (by omega); simp [patchStepOk] at hx
    | ok tempCommitSha =>
      cases s2 with
      | error e => have hx := h 1 (by omega); simp [patchStepOk] at hx
      | ok u1 =>
        cases s3 with
        | error e => have hx := h 2 (by omega); simp [patchStepOk] at hx
        | ok mergeRes =>
          cases s4 with
          | error e => have hx := h 3 (by omega); simp [patchStepOk] at hx
          | ok cherryPickSha =>
            cases s5 with
            | error e => have hx := h 4 (by omega); simp [patchStepOk] at hx
            | ok u2 =>
              cases s6 with
              | error e =>
                have hx := h 5 (by omega); simp [patchStepOk] at hx
              | ok tagObjectSha =>
                cases s7 with
                | error e =>
                  have hx := h 6 (by omega); simp [patchStepOk] at hx
                | ok u3 =>
                  cases s8 with
                  | error e =>
                    have hx := h 7 (by omega); simp [patchStepOk] at hx
                  | ok upd =>
                    simp [runPatch, patchCanonicalCalls, exValD]

end ReleaseManager
